import Mathlib

/-!
A shallow embedding of `train.py`, a Florence-2 fine-tuning script, together
with theorems about its dataset handling, batch collation and training loop.

External library surfaces (json.loads, PIL's Image.open, the HuggingFace
processor and tokenizer) are abstracted as function parameters; the control
flow of the script itself — line-by-line JSONL loading, index checks,
exception propagation, the per-epoch train/validate/checkpoint sequence —
is translated directly from the source. Python exceptions are modelled by
`Except PyError`; float arithmetic on losses is modelled by `Rat`.
-/

set_option autoImplicit false

namespace TrainPy

/-- The Python exceptions the script can raise or propagate. -/
inductive PyError where
  | indexError
  | keyError (k : String)
  | fileNotFound (msg : String)
  | nameError
  | zeroDivisionError
  | valueError
  | jsonDecode (msg : String)
  deriving DecidableEq

/-- Module-level constant: BATCH_SIZE = 4. -/
def BATCH_SIZE : Nat := 4

/-- Module-level constant: gradient_accumulation_steps = 2, passed to
Accelerator(gradient_accumulation_steps=...). -/
def gradient_accumulation_steps : Nat := 2

/-- Module-level constant: epochs = 8. -/
def epochs : Nat := 8

/-- Module-level constant: output_dir = "./model_checkpoints". -/
def output_dir : String := "./model_checkpoints"

/-- A parsed JSONL entry: the script reads string fields out of the decoded
JSON object, so entries are modelled as string-keyed dictionaries of
strings (the fields used are image, prefix and suffix). -/
abbrev Entry := List (String × String)

/-- Python dictionary subscript `entry[k]`: KeyError when the key is absent. -/
def dictGet (d : Entry) (k : String) : Except PyError String :=
  match d.lookup k with
  | some v => .ok v
  | none => .error (.keyError k)

/-- os.path.join for POSIX paths, as used with two arguments in the script. -/
def pathJoin (a b : String) : String :=
  if b.startsWith "/" then b
  else if a = "" then b
  else if a.endsWith "/" then a ++ b
  else a ++ "/" ++ b

/-- JSONLDataset._load_entries: json.loads each line of the file in order,
appending to the list; a decode failure propagates as an exception and no
list is returned. `parse` abstracts json.loads on one line. -/
def load_entries (parse : String → Except PyError Entry) :
    List String → Except PyError (List Entry)
  | [] => .ok []
  | l :: ls => do
    let e ← parse l
    let es ← load_entries parse ls
    pure (e :: es)

/-- The JSONLDataset object: the two constructor arguments plus the loaded
entries list. -/
structure JSONLDataset where
  jsonl_file_path : String
  image_directory_path : String
  entries : List Entry

/-- JSONLDataset.__init__: store the paths and load the entries from the
file's lines; a parse failure propagates and no object is produced. -/
def JSONLDataset.init (parse : String → Except PyError Entry)
    (jsonl_file_path image_directory_path : String) (lines : List String) :
    Except PyError JSONLDataset :=
  (load_entries parse lines).map
    (fun es => ⟨jsonl_file_path, image_directory_path, es⟩)

/-- JSONLDataset.__len__. -/
def JSONLDataset.len (ds : JSONLDataset) : Nat := ds.entries.length

/-- PIL's Image.open against a modelled file system `fs`: a missing file
raises FileNotFoundError naming the path. -/
def imageOpen {Image : Type} (fs : String → Option Image) (p : String) :
    Except PyError Image :=
  match fs p with
  | some i => .ok i
  | none => .error (.fileNotFound p)

/-- JSONLDataset.__getitem__: an index outside [0, len(entries)) raises
IndexError before any file access; otherwise the image at
os.path.join(image_directory_path, entry[image-key]) is opened, a missing
file being re-raised as FileNotFoundError with the script's own message. -/
def JSONLDataset.getitem {Image : Type} (fs : String → Option Image)
    (ds : JSONLDataset) (idx : Int) : Except PyError (Image × Entry) :=
  if h : idx < 0 ∨ (ds.entries.length : Int) ≤ idx then
    .error .indexError
  else
    let entry := ds.entries.get ⟨idx.toNat, by omega⟩
    match dictGet entry "image" with
    | .error e => .error e
    | .ok nm =>
      let image_path := pathJoin ds.image_directory_path nm
      match imageOpen fs image_path with
      | .ok image => .ok (image, entry)
      | .error (.fileNotFound _) =>
          .error (.fileNotFound ("Image file " ++ image_path ++ " not found."))
      | .error e => .error e

/-- The DetectionDataset object wraps a JSONLDataset. -/
structure DetectionDataset where
  dataset : JSONLDataset

/-- DetectionDataset.__init__: construct the inner JSONLDataset; its
exceptions propagate. -/
def DetectionDataset.init (parse : String → Except PyError Entry)
    (jsonl_file_path image_directory_path : String) (lines : List String) :
    Except PyError DetectionDataset :=
  (JSONLDataset.init parse jsonl_file_path image_directory_path lines).map
    (fun d => ⟨d⟩)

/-- DetectionDataset.__len__. -/
def DetectionDataset.len (ds : DetectionDataset) : Nat := ds.dataset.len

/-- DetectionDataset.__getitem__: fetch (image, data) from the inner dataset
and return (data[prefix-key], data[suffix-key], image). -/
def DetectionDataset.getitem {Image : Type} (fs : String → Option Image)
    (ds : DetectionDataset) (idx : Int) :
    Except PyError (String × String × Image) := do
  let r ← ds.dataset.getitem fs idx
  let pfx ← dictGet r.2 "prefix"
  let sfx ← dictGet r.2 "suffix"
  pure (pfx, sfx, r.1)

/-- Python zip(*batch) for a list of triples. -/
def unzip3 {α β γ : Type} : List (α × β × γ) → List α × List β × List γ
  | [] => ([], [], [])
  | (a, b, c) :: t =>
    let r := unzip3 t
    (a :: r.1, b :: r.2.1, c :: r.2.2)

/-- collate_fn: zip the batch apart into questions, answers and images,
encode the questions and images with the processor (abstracted as `proc`),
and return the answers unchanged alongside; unpacking zip() of an empty
batch raises ValueError. -/
def collate_fn {Image Inputs : Type} (proc : List String → List Image → Inputs)
    (batch : List (String × String × Image)) :
    Except PyError (Inputs × List String) :=
  match batch with
  | [] => .error .valueError
  | b :: rest =>
    let z := unzip3 (b :: rest)
    .ok (proc z.1 z.2.2, z.2.1)

/-- The labels tensor built inside the train and validation loops: the
processor's tokenizer (abstracted as `tok`) applied to the collated
answers. -/
def computeLabels {Labels : Type} (tok : List String → Labels)
    (answers : List String) : Labels :=
  tok answers

/-- The observable steps of train_model, indexed by epoch (0-based) and by
batch position within the loader. -/
inductive Event where
  | forward (epoch batch : Nat)
  | backward (epoch batch : Nat)
  | optStep (epoch batch : Nat)
  | schedStep (epoch batch : Nat)
  | zeroGrad (epoch batch : Nat)
  | printTrainLoss (epoch : Nat) (avg : Rat)
  | valForward (epoch batch : Nat)
  | printValLoss (epoch : Nat) (avg : Rat)
  | makedirs (dir : String)
  | saveModel (dir : String)
  deriving DecidableEq

/-- The body of the training loop for one batch, in source order: forward
pass (with the tokenized labels), accelerator.backward, optimizer.step,
lr_scheduler.step, optimizer.zero_grad. -/
def trainBatchEvents (e b : Nat) : List Event :=
  [.forward e b, .backward e b, .optStep e b, .schedStep e b, .zeroGrad e b]

/-- The training loop of epoch `e` over the remaining loader batches `bs`
(out of `nTrain` loader batches in all): each iteration emits the batch's
events, adds the batch loss `tf e b` to train_loss, and reassigns
avg_train_loss = train_loss / len(train_loader). Returns the events, the
final train_loss, and the final avg_train_loss (still the inherited value
when the loop body never ran). -/
def trainPhaseGo (tf : Nat → Nat → Rat) (nTrain e : Nat) :
    List Nat → Rat → Option Rat → List Event × Rat × Option Rat
  | [], tl, avg => ([], tl, avg)
  | b :: bs, tl, _ =>
    let tl' := tl + tf e b
    let r := trainPhaseGo tf nTrain e bs tl' (some (tl' / (nTrain : Rat)))
    (trainBatchEvents e b ++ r.1, r.2.1, r.2.2)

/-- The validation loop of epoch `e`: one no-grad forward per batch, and the
summed val_loss, the batch losses being `vf e b`. -/
def valPhase (vf : Nat → Nat → Rat) (e nVal : Nat) : List Event × Rat :=
  ((List.range nVal).map (fun b => Event.valForward e b),
   ((List.range nVal).map (vf e)).sum)

/-- One epoch of train_model: the training loop, then the print of
avg_train_loss (NameError when that variable was never assigned), then the
validation loop, then avg_val_loss = val_loss / len(val_loader)
(ZeroDivisionError on an empty loader) and its print, then
os.makedirs(..., exist_ok=True) and accelerator.save_model into
out_dir + "/epoch_" + (e+1). Returns the epoch's events and the
avg_train_loss left for the next epoch's scope. -/
def runEpoch (tf vf : Nat → Nat → Rat) (nTrain nVal : Nat) (out_dir : String)
    (e : Nat) (avg0 : Option Rat) : Except PyError (List Event × Option Rat) :=
  let t := trainPhaseGo tf nTrain e (List.range nTrain) 0 avg0
  match t.2.2 with
  | none => .error .nameError
  | some avg =>
    let v := valPhase vf e nVal
    if nVal = 0 then .error .zeroDivisionError
    else
      let d := out_dir ++ "/epoch_" ++ toString (e + 1)
      .ok (t.1 ++ [.printTrainLoss e avg] ++ v.1 ++
             [.printValLoss e (v.2 / (nVal : Rat)), .makedirs d, .saveModel d],
           some avg)

/-- The epoch loop of train_model over the remaining epoch numbers `es`,
threading avg_train_loss (a Python local surviving across epochs) and
stopping at the first exception. -/
def runEpochsGo (tf vf : Nat → Nat → Rat) (nTrain nVal : Nat)
    (out_dir : String) : List Nat → Option Rat → Except PyError (List Event)
  | [], _ => .ok []
  | e :: es, avg0 =>
    match runEpoch tf vf nTrain nVal out_dir e avg0 with
    | .error err => .error err
    | .ok r =>
      match runEpochsGo tf vf nTrain nVal out_dir es r.2 with
      | .error err => .error err
      | .ok rest => .ok (r.1 ++ rest)

/-- train_model as the trace of framework calls it performs, for loaders of
`nTrain` and `nVal` batches whose per-batch losses are `tf`/`vf`. -/
def train_model (tf vf : Nat → Nat → Rat) (eps nTrain nVal : Nat)
    (out_dir : String) : Except PyError (List Event) :=
  runEpochsGo tf vf nTrain nVal out_dir (List.range eps) none

/-- The arguments train_model hands to get_scheduler. -/
structure SchedulerConfig where
  name : String
  num_warmup_steps : Nat
  num_training_steps : Nat
  deriving DecidableEq

/-- The get_scheduler call in train_model: a linear schedule with 12 warmup
steps over epochs * len(train_loader) total steps. -/
def get_scheduler_config (eps nTrain : Nat) : SchedulerConfig :=
  { name := "linear", num_warmup_steps := 12, num_training_steps := eps * nTrain }

/-- Modelled from the spec: the accelerate library's gradient accumulation,
which the script delegates to Accelerator(gradient_accumulation_steps=gas)
wrapping the per-batch optimizer.step() calls — gradients of consecutive
batches are summed and an optimizer update is applied only on every gas-th
batch, with the summed gradient. `accumGo gas grads acc c` processes the
remaining per-batch gradients `grads` with pending sum `acc` after `c`
batches, returning the applied updates in order. -/
def accumGo (gas : Nat) : List Int → Int → Nat → List Int
  | [], _, _ => []
  | g :: gs, acc, c =>
    let acc' := acc + g
    if (c + 1) % gas = 0 then acc' :: accumGo gas gs 0 (c + 1)
    else accumGo gas gs acc' (c + 1)

/-- The applied optimizer updates for a whole stream of per-batch
gradients under gradient accumulation. -/
def accumulateSteps (gas : Nat) (grads : List Int) : List Int :=
  accumGo gas grads 0 0

/-- Sums of consecutive pairs of a list. -/
def pairSums : List Int → List Int
  | a :: b :: rest => (a + b) :: pairSums rest
  | _ => []

/-- A method call on the dataset object. -/
inductive DsOp where
  | len
  | getitem (idx : Int)

/-- The result of a dataset method call. -/
inductive DsRes (Image : Type) where
  | len (n : Nat)
  | item (r : Except PyError (Image × Entry))

/-- One method call on a JSONLDataset object together with the object state
it leaves behind: __len__ and __getitem__ only read self.entries and
self.image_directory_path and assign no attribute. -/
def runOp {Image : Type} (fs : String → Option Image) (ds : JSONLDataset) :
    DsOp → DsRes Image × JSONLDataset
  | .len => (.len ds.entries.length, ds)
  | .getitem idx => (.item (ds.getitem fs idx), ds)

/-- A sequence of method calls on the dataset object, threading its state. -/
def runOps {Image : Type} (fs : String → Option Image) (ds : JSONLDataset) :
    List DsOp → List (DsRes Image) × JSONLDataset
  | [] => ([], ds)
  | op :: ops =>
    let r := runOp fs ds op
    let rest := runOps fs r.2 ops
    (r.1 :: rest.1, rest.2)

/-- The summed training loss of epoch `e` over all `nTrain` batches. -/
def trainTotal (tf : Nat → Nat → Rat) (nTrain e : Nat) : Rat :=
  ((List.range nTrain).map (tf e)).sum

/-- The summed validation loss of epoch `e` over all `nVal` batches. -/
def valTotal (vf : Nat → Nat → Rat) (nVal e : Nat) : Rat :=
  ((List.range nVal).map (vf e)).sum

/-- The checkpoint directory of epoch `e` (0-based): out_dir + "/epoch_" +
(e+1). -/
def epochDir (out_dir : String) (e : Nat) : String :=
  out_dir ++ "/epoch_" ++ toString (e + 1)

/-- The phase order within one epoch, as the spec describes it: every
training batch (forward, backward, optimizer step, scheduler step, gradient
zeroing), the training-loss print, every validation batch, the
validation-loss print, then the checkpoint directory creation and save. -/
def epochEvents (tf vf : Nat → Nat → Rat) (nTrain nVal : Nat)
    (out_dir : String) (e : Nat) : List Event :=
  (List.range nTrain).flatMap (trainBatchEvents e) ++
  [.printTrainLoss e (trainTotal tf nTrain e / (nTrain : Rat))] ++
  (List.range nVal).map (Event.valForward e) ++
  [.printValLoss e (valTotal vf nVal e / (nVal : Rat)),
   .makedirs (epochDir out_dir e), .saveModel (epochDir out_dir e)]

/-- The directory of a save-model event. -/
def savedDir : Event → Option String
  | .saveModel d => some d
  | _ => none

/-- The directory of a makedirs event. -/
def madeDir : Event → Option String
  | .makedirs d => some d
  | _ => none

/-- Recognizes a scheduler-step event. -/
def isSchedStep : Event → Bool
  | .schedStep _ _ => true
  | _ => false

/-- Recognizes an optimizer-step event. -/
def isOptStep : Event → Bool
  | .optStep _ _ => true
  | _ => false

/-! ### Shape of the training loop -/

theorem trainPhaseGo_eq (tf : Nat → Nat → Rat) (nT e : Nat) :
    ∀ (bs : List Nat) (tl : Rat) (avg : Option Rat),
      trainPhaseGo tf nT e bs tl avg =
        (bs.flatMap (trainBatchEvents e),
         tl + (bs.map (tf e)).sum,
         if bs = [] then avg
         else some ((tl + (bs.map (tf e)).sum) / (nT : Rat))) := by
  intro bs
  induction bs with
  | nil => intro tl avg; simp [trainPhaseGo]
  | cons b bs ih =>
    intro tl avg
    simp only [trainPhaseGo, ih (tl + tf e b) (some ((tl + tf e b) / (nT : Rat)))]
    rcases bs with _ | ⟨b2, bs2⟩
    · simp
    · simp
      ring_nf
      simp

theorem runEpoch_ok (tf vf : Nat → Nat → Rat) (nT nV : Nat) (d : String)
    (e : Nat) (avg0 : Option Rat) (hT : nT ≠ 0) (hV : nV ≠ 0) :
    runEpoch tf vf nT nV d e avg0 =
      .ok (epochEvents tf vf nT nV d e,
           some (trainTotal tf nT e / (nT : Rat))) := by
  have hrange : List.range nT ≠ [] := by
    simp [List.range_eq_nil, hT]
  simp only [runEpoch, trainPhaseGo_eq, hrange, if_neg hrange, valPhase]
  simp only [if_neg hV]
  simp [epochEvents, trainTotal, valTotal, epochDir]

theorem runEpochsGo_ok (tf vf : Nat → Nat → Rat) (nT nV : Nat) (d : String)
    (hT : nT ≠ 0) (hV : nV ≠ 0) :
    ∀ (es : List Nat) (avg0 : Option Rat),
      runEpochsGo tf vf nT nV d es avg0 =
        .ok (es.flatMap (epochEvents tf vf nT nV d)) := by
  intro es
  induction es with
  | nil => intro avg0; simp [runEpochsGo]
  | cons e es ih =>
    intro avg0
    simp [runEpochsGo, runEpoch_ok tf vf nT nV d e avg0 hT hV, ih]

/-- With non-empty loaders, the full run succeeds and its trace is the
epoch-by-epoch concatenation of the per-epoch phase sequences. -/
theorem train_model_trace (tf vf : Nat → Nat → Rat) (eps nT nV : Nat)
    (d : String) (hT : nT ≠ 0) (hV : nV ≠ 0) :
    train_model tf vf eps nT nV d =
      .ok ((List.range eps).flatMap (epochEvents tf vf nT nV d)) := by
  simp [train_model, runEpochsGo_ok tf vf nT nV d hT hV]

/-! ### Auxiliary list lemmas -/

theorem flatMap_singleton_eq_map {α β : Type} (l : List α) (f : α → β) :
    (l.flatMap fun a => [f a]) = l.map f := by
  induction l with
  | nil => rfl
  | cons a t ih => simp [ih]

theorem flatMap_nil_const {α β : Type} (l : List α) :
    (l.flatMap fun _ => ([] : List β)) = [] := by
  induction l with
  | nil => rfl
  | cons a t ih => simp [ih]

theorem filterMap_none_const {α β : Type} (l : List α) :
    (l.filterMap fun _ => (none : Option β)) = [] := by
  induction l with
  | nil => rfl
  | cons a t ih => simp [List.filterMap_cons, ih]

theorem countP_false_const {α : Type} (l : List α) :
    (l.countP fun _ => false) = 0 := by
  induction l with
  | nil => rfl
  | cons a t ih => simp [List.countP_cons, ih]

theorem load_entries_ok (parse : String → Except PyError Entry)
    (ent : String → Entry) :
    ∀ lines : List String, (∀ l ∈ lines, parse l = .ok (ent l)) →
      load_entries parse lines = .ok (lines.map ent) := by
  intro lines
  induction lines with
  | nil => intro _; rfl
  | cons l ls ih =>
    intro h
    have h1 := h l (List.mem_cons_self l ls)
    simp [load_entries, h1, ih (fun x hx => h x (List.mem_cons_of_mem l hx)),
          Bind.bind, Except.bind, Pure.pure, Except.pure]

theorem load_entries_error (parse : String → Except PyError Entry)
    (bad : String) (rest : List String) (err : PyError)
    (hbad : parse bad = .error err) :
    ∀ pre : List String, (∀ l ∈ pre, ∃ en, parse l = .ok en) →
      load_entries parse (pre ++ bad :: rest) = .error err := by
  intro pre
  induction pre with
  | nil => intro _; simp [load_entries, hbad, Bind.bind, Except.bind]
  | cons l ls ih =>
    intro h
    obtain ⟨en, hen⟩ := h l (List.mem_cons_self l ls)
    simp [load_entries, hen, ih (fun x hx => h x (List.mem_cons_of_mem l hx)),
          Bind.bind, Except.bind, Pure.pure, Except.pure]

theorem unzip3_eq {α β γ : Type} (l : List (α × β × γ)) :
    unzip3 l =
      (l.map fun t => t.1, l.map fun t => t.2.1, l.map fun t => t.2.2) := by
  induction l with
  | nil => rfl
  | cons a t ih => simp [unzip3, ih]

theorem runOp_state {Image : Type} (fs : String → Option Image)
    (ds : JSONLDataset) (op : DsOp) : (runOp fs ds op).2 = ds := by
  cases op <;> rfl

theorem accumGo_two : ∀ gs : List Int, gs.length % 2 = 0 →
    ∀ c : Nat, c % 2 = 0 → accumGo 2 gs 0 c = pairSums gs
  | [], _, _, _ => by simp [accumGo, pairSums]
  | [g], h, _, _ => by simp at h
  | a :: b :: rest, h, c, hc => by
    have h1 : ¬((c + 1) % 2 = 0) := by omega
    have h2 : (c + 1 + 1) % 2 = 0 := by omega
    have hr : rest.length % 2 = 0 := by
      simp only [List.length_cons] at h
      omega
    simp only [accumGo, if_neg h1, if_pos h2, pairSums]
    rw [accumGo_two rest hr (c + 1 + 1) (by omega)]
    simp [add_comm]

theorem savedDir_epochEvents (tf vf : Nat → Nat → Rat) (nT nV : Nat)
    (d : String) (e : Nat) :
    (epochEvents tf vf nT nV d e).filterMap savedDir = [epochDir d e] := by
  simp [epochEvents, List.filterMap_append, List.filterMap_flatMap,
        trainBatchEvents, savedDir, List.filterMap_map, Function.comp_def,
        flatMap_nil_const, filterMap_none_const]

theorem madeDir_epochEvents (tf vf : Nat → Nat → Rat) (nT nV : Nat)
    (d : String) (e : Nat) :
    (epochEvents tf vf nT nV d e).filterMap madeDir = [epochDir d e] := by
  simp [epochEvents, List.filterMap_append, List.filterMap_flatMap,
        trainBatchEvents, madeDir, List.filterMap_map, Function.comp_def,
        flatMap_nil_const, filterMap_none_const]

theorem countP_sched_epochEvents (tf vf : Nat → Nat → Rat) (nT nV : Nat)
    (d : String) (e : Nat) :
    (epochEvents tf vf nT nV d e).countP isSchedStep = nT := by
  simp [epochEvents, List.countP_append, List.countP_flatMap,
        trainBatchEvents, isSchedStep, List.countP_map, Function.comp_def,
        List.countP_cons, List.map_const', List.sum_replicate,
        countP_false_const]

theorem countP_opt_epochEvents (tf vf : Nat → Nat → Rat) (nT nV : Nat)
    (d : String) (e : Nat) :
    (epochEvents tf vf nT nV d e).countP isOptStep = nT := by
  simp [epochEvents, List.countP_append, List.countP_flatMap,
        trainBatchEvents, isOptStep, List.countP_map, Function.comp_def,
        List.countP_cons, List.map_const', List.sum_replicate,
        countP_false_const]

theorem trace_savedDirs (tf vf : Nat → Nat → Rat) (eps nT nV : Nat)
    (d : String) :
    ((List.range eps).flatMap (epochEvents tf vf nT nV d)).filterMap savedDir
      = (List.range eps).map (epochDir d) := by
  rw [List.filterMap_flatMap]
  simp only [savedDir_epochEvents]
  exact flatMap_singleton_eq_map _ _

theorem trace_madeDirs (tf vf : Nat → Nat → Rat) (eps nT nV : Nat)
    (d : String) :
    ((List.range eps).flatMap (epochEvents tf vf nT nV d)).filterMap madeDir
      = (List.range eps).map (epochDir d) := by
  rw [List.filterMap_flatMap]
  simp only [madeDir_epochEvents]
  exact flatMap_singleton_eq_map _ _

theorem trace_countP_sched (tf vf : Nat → Nat → Rat) (eps nT nV : Nat)
    (d : String) :
    ((List.range eps).flatMap (epochEvents tf vf nT nV d)).countP isSchedStep
      = eps * nT := by
  rw [List.countP_flatMap]
  simp [Function.comp_def, countP_sched_epochEvents, List.map_const',
        List.sum_replicate, smul_eq_mul]

theorem trace_countP_opt (tf vf : Nat → Nat → Rat) (eps nT nV : Nat)
    (d : String) :
    ((List.range eps).flatMap (epochEvents tf vf nT nV d)).countP isOptStep
      = eps * nT := by
  rw [List.countP_flatMap]
  simp [Function.comp_def, countP_opt_epochEvents, List.map_const',
        List.sum_replicate, smul_eq_mul]

/-! ### The claims -/

/-- C1: with non-empty loaders, after each epoch's training and validation
phases the model is saved into output_dir + "/epoch_" + (e+1) — the
directory being created first — so a full run of `eps` epochs produces
exactly `eps` checkpoint directories, named epoch_1 through epoch_eps in
order. -/
theorem checkpoints_per_epoch (tf vf : Nat → Nat → Rat) (eps nT nV : Nat)
    (d : String) (hT : 0 < nT) (hV : 0 < nV) :
    ∃ tr, train_model tf vf eps nT nV d = .ok tr ∧
      tr.filterMap savedDir =
        (List.range eps).map (fun e => d ++ "/epoch_" ++ toString (e + 1)) ∧
      tr.filterMap madeDir =
        (List.range eps).map (fun e => d ++ "/epoch_" ++ toString (e + 1)) ∧
      (tr.filterMap savedDir).length = eps := by
  refine ⟨_, train_model_trace tf vf eps nT nV d (by omega) (by omega),
          ?_, ?_, ?_⟩
  · rw [trace_savedDirs]; simp [epochDir]
  · rw [trace_madeDirs]; simp [epochDir]
  · rw [trace_savedDirs]; simp

theorem checkpoints_per_epoch_witness :
    ∃ tr, train_model (fun _ _ => 0) (fun _ _ => 0) 2 1 1 "./model_checkpoints"
        = .ok tr ∧
      tr.filterMap savedDir =
        (List.range 2).map
          (fun e => "./model_checkpoints" ++ "/epoch_" ++ toString (e + 1)) ∧
      tr.filterMap madeDir =
        (List.range 2).map
          (fun e => "./model_checkpoints" ++ "/epoch_" ++ toString (e + 1)) ∧
      (tr.filterMap savedDir).length = 2 :=
  checkpoints_per_epoch (fun _ _ => 0) (fun _ _ => 0) 2 1 1
    "./model_checkpoints" (by decide) (by decide)

/-- C2: a malformed JSONL line makes JSONLDataset construction raise the
decode error (no dataset object is produced), and a missing image file
makes JSONLDataset.__getitem__ raise FileNotFoundError with the script's
message; both propagate as errors of the call. -/
theorem errors_propagate_uncaught :
    (∀ (parse : String → Except PyError Entry) (p d bad : String)
        (pre rest : List String) (err : PyError),
        (∀ l ∈ pre, ∃ en, parse l = .ok en) → parse bad = .error err →
        JSONLDataset.init parse p d (pre ++ bad :: rest) = .error err) ∧
    (∀ (Image : Type) (fs : String → Option Image) (ds : JSONLDataset)
        (i : Nat) (hi : i < ds.entries.length) (nm : String),
        dictGet ds.entries[i] "image" = .ok nm →
        fs (pathJoin ds.image_directory_path nm) = none →
        ds.getitem fs (i : Int) =
          .error (.fileNotFound
            ("Image file " ++ pathJoin ds.image_directory_path nm ++
              " not found."))) := by
  constructor
  · intro parse p d bad pre rest err hpre hbad
    simp [JSONLDataset.init, Except.map,
          load_entries_error parse bad rest err hbad pre hpre]
  · intro Image fs ds i hi nm hnm hfs
    have hcond : ¬((i : Int) < 0 ∨ (ds.entries.length : Int) ≤ (i : Int)) := by
      omega
    simp only [JSONLDataset.getitem, dif_neg hcond, Int.toNat_natCast,
               List.get_eq_getElem]
    simp [hnm, imageOpen, hfs]

theorem errors_propagate_uncaught_witness :
    JSONLDataset.init
        (fun l => if l = "bad" then .error (.jsonDecode "Expecting value")
                  else .ok [("image", "a.png")])
        "./annotations/train.jsonl" "./images" (["good"] ++ "bad" :: []) =
      .error (.jsonDecode "Expecting value") ∧
    JSONLDataset.getitem (fun _ => (none : Option Nat))
        ⟨"./annotations/train.jsonl", "./images", [[("image", "a.png")]]⟩
        ((0 : Nat) : Int) =
      .error (.fileNotFound
        ("Image file " ++ pathJoin "./images" "a.png" ++ " not found.")) := by
  constructor
  · exact errors_propagate_uncaught.1 _ "./annotations/train.jsonl" "./images"
      "bad" ["good"] [] _
      (by
        intro l hl
        refine ⟨[("image", "a.png")], ?_⟩
        simp only [List.mem_singleton] at hl
        simp [hl])
      (by simp)
  · exact errors_propagate_uncaught.2 Nat _
      ⟨"./annotations/train.jsonl", "./images", [[("image", "a.png")]]⟩
      0 (by decide) "a.png" rfl rfl

/-- C3: for a well-formed JSONL file the loaded dataset has one entry per
line in file order, its length is the number of lines, and
DetectionDataset.__getitem__(i) returns the i-th entry's prefix and suffix
together with the image opened from the image directory joined with the
entry's image filename. -/
theorem dataset_matches_lines (parse : String → Except PyError Entry)
    (ent : String → Entry) (lines : List String) (p d : String)
    (hp : ∀ l ∈ lines, parse l = .ok (ent l)) :
    DetectionDataset.init parse p d lines = .ok ⟨⟨p, d, lines.map ent⟩⟩ ∧
    DetectionDataset.len ⟨⟨p, d, lines.map ent⟩⟩ = lines.length ∧
    (∀ (Image : Type) (fs : String → Option Image) (i : Nat)
        (hi : i < lines.length) (nm pfx sfx : String) (img : Image),
        dictGet (ent lines[i]) "image" = .ok nm →
        dictGet (ent lines[i]) "prefix" = .ok pfx →
        dictGet (ent lines[i]) "suffix" = .ok sfx →
        fs (pathJoin d nm) = some img →
        DetectionDataset.getitem fs ⟨⟨p, d, lines.map ent⟩⟩ (i : Int) =
          .ok (pfx, sfx, img)) := by
  refine ⟨?_, ?_, ?_⟩
  · simp [DetectionDataset.init, JSONLDataset.init, Except.map,
          load_entries_ok parse ent lines hp]
  · simp [DetectionDataset.len, JSONLDataset.len]
  · intro Image fs i hi nm pfx sfx img h1 h2 h3 hfs
    have hlen : (lines.map ent).length = lines.length := List.length_map _ _
    have hcond : ¬((i : Int) < 0 ∨ ((lines.map ent).length : Int) ≤ (i : Int)) := by
      rw [hlen]; omega
    simp only [DetectionDataset.getitem, JSONLDataset.getitem]
    simp only [dif_neg hcond, Int.toNat_natCast, List.get_eq_getElem,
               List.getElem_map]
    simp [h1, h2, h3, imageOpen, hfs, Bind.bind, Except.bind, Pure.pure,
          Except.pure]

theorem dataset_matches_lines_witness :
    DetectionDataset.init
        (fun _ => .ok [("image", "a.png"), ("prefix", "<OD>"), ("suffix", "boxes")])
        "./annotations/train.jsonl" "./images" ["line1"] =
      .ok ⟨⟨"./annotations/train.jsonl", "./images",
            (["line1"]).map
              (fun _ => [("image", "a.png"), ("prefix", "<OD>"),
                         ("suffix", "boxes")])⟩⟩ ∧
    DetectionDataset.len
        ⟨⟨"./annotations/train.jsonl", "./images",
          (["line1"]).map
            (fun _ => [("image", "a.png"), ("prefix", "<OD>"),
                       ("suffix", "boxes")])⟩⟩ = (["line1"]).length ∧
    (∀ (Image : Type) (fs : String → Option Image) (i : Nat)
        (hi : i < (["line1"]).length) (nm pfx sfx : String) (img : Image),
        dictGet ((fun _ => [("image", "a.png"), ("prefix", "<OD>"),
                            ("suffix", "boxes")]) (["line1"])[i]) "image" = .ok nm →
        dictGet ((fun _ => [("image", "a.png"), ("prefix", "<OD>"),
                            ("suffix", "boxes")]) (["line1"])[i]) "prefix" = .ok pfx →
        dictGet ((fun _ => [("image", "a.png"), ("prefix", "<OD>"),
                            ("suffix", "boxes")]) (["line1"])[i]) "suffix" = .ok sfx →
        fs (pathJoin "./images" nm) = some img →
        DetectionDataset.getitem fs
            ⟨⟨"./annotations/train.jsonl", "./images",
              (["line1"]).map
                (fun _ => [("image", "a.png"), ("prefix", "<OD>"),
                           ("suffix", "boxes")])⟩⟩ (i : Int) =
          .ok (pfx, sfx, img)) :=
  dataset_matches_lines
    (fun _ => .ok [("image", "a.png"), ("prefix", "<OD>"), ("suffix", "boxes")])
    (fun _ => [("image", "a.png"), ("prefix", "<OD>"), ("suffix", "boxes")])
    ["line1"] "./annotations/train.jsonl" "./images" (by intro l hl; rfl)

/-- C4: collate_fn on a non-empty batch returns the processor's encoding of
exactly the batch's prefixes and images in batch order, paired with the
batch's suffixes unmodified and in order; the labels built later in the
loop are just the tokenizer applied to those suffixes. -/
theorem collate_components {Image Inputs Labels : Type}
    (proc : List String → List Image → Inputs) (tok : List String → Labels)
    (batch : List (String × String × Image)) (h : batch ≠ []) :
    collate_fn proc batch =
      .ok (proc (batch.map fun t => t.1) (batch.map fun t => t.2.2),
           batch.map fun t => t.2.1) ∧
    computeLabels tok (batch.map fun t => t.2.1) =
      tok (batch.map fun t => t.2.1) := by
  refine ⟨?_, rfl⟩
  match batch, h with
  | b :: rest, _ => simp [collate_fn, unzip3_eq]

theorem collate_components_witness :
    collate_fn (fun qs imgs => (qs, imgs))
        [("q1", "s1", (7 : Nat)), ("q2", "s2", (9 : Nat))] =
      .ok ((([("q1", "s1", (7 : Nat)), ("q2", "s2", (9 : Nat))]).map
              fun t => t.1,
            ([("q1", "s1", (7 : Nat)), ("q2", "s2", (9 : Nat))]).map
              fun t => t.2.2),
           ([("q1", "s1", (7 : Nat)), ("q2", "s2", (9 : Nat))]).map
             fun t => t.2.1) ∧
    computeLabels (fun l => l)
        (([("q1", "s1", (7 : Nat)), ("q2", "s2", (9 : Nat))]).map
          fun t => t.2.1) =
      (fun l => l)
        (([("q1", "s1", (7 : Nat)), ("q2", "s2", (9 : Nat))]).map
          fun t => t.2.1) :=
  collate_components (fun qs imgs => (qs, imgs)) (fun l => l)
    [("q1", "s1", (7 : Nat)), ("q2", "s2", (9 : Nat))] (by decide)

/-- C5: the scheduler is created with name "linear", 12 warmup steps and
epochs * len(train_loader) total steps, and with non-empty loaders the
whole run performs exactly that many scheduler step invocations — one per
training batch. -/
theorem linear_scheduler_steps (tf vf : Nat → Nat → Rat) (eps nT nV : Nat)
    (d : String) (hT : 0 < nT) (hV : 0 < nV) :
    (get_scheduler_config eps nT).name = "linear" ∧
    (get_scheduler_config eps nT).num_warmup_steps = 12 ∧
    (get_scheduler_config eps nT).num_training_steps = eps * nT ∧
    ∃ tr, train_model tf vf eps nT nV d = .ok tr ∧
      tr.countP isSchedStep = (get_scheduler_config eps nT).num_training_steps := by
  refine ⟨rfl, rfl, rfl, _,
          train_model_trace tf vf eps nT nV d (by omega) (by omega), ?_⟩
  simpa [get_scheduler_config] using trace_countP_sched tf vf eps nT nV d

theorem linear_scheduler_steps_witness :
    (get_scheduler_config 2 3).name = "linear" ∧
    (get_scheduler_config 2 3).num_warmup_steps = 12 ∧
    (get_scheduler_config 2 3).num_training_steps = 2 * 3 ∧
    ∃ tr, train_model (fun _ _ => 1) (fun _ _ => 1) 2 3 1 "o" = .ok tr ∧
      tr.countP isSchedStep = (get_scheduler_config 2 3).num_training_steps :=
  linear_scheduler_steps (fun _ _ => 1) (fun _ _ => 1) 2 3 1 "o"
    (by decide) (by decide)

/-- C6: with non-empty loaders the run succeeds and its trace is exactly the
epochs in increasing order, each consisting of all training batches (each
batch: forward, backward, optimizer step, scheduler step, gradient
zeroing), the training-loss print, all validation batches, the
validation-loss print, and the epoch's checkpoint — with no interleaving
across epochs. -/
theorem epoch_phase_order (tf vf : Nat → Nat → Rat) (eps nT nV : Nat)
    (d : String) (hT : 0 < nT) (hV : 0 < nV) :
    train_model tf vf eps nT nV d =
      .ok ((List.range eps).flatMap (epochEvents tf vf nT nV d)) :=
  train_model_trace tf vf eps nT nV d (by omega) (by omega)

theorem epoch_phase_order_witness :
    train_model (fun _ _ => 1) (fun _ _ => 1) 2 2 1 "o" =
      .ok ((List.range 2).flatMap
            (epochEvents (fun _ _ => 1) (fun _ _ => 1) 2 1 "o")) :=
  epoch_phase_order (fun _ _ => 1) (fun _ _ => 1) 2 2 1 "o"
    (by decide) (by decide)

/-- C7: the accelerator is configured with gradient_accumulation_steps = 2;
under the accumulation semantics delegated to it, an even-length stream of
per-batch gradients yields one applied update per two consecutive batches,
each update being their summed gradients (simulating twice the batch
size), while the script itself calls the wrapped optimizer step once per
training batch. -/
theorem gradient_accumulation_pairs (g : List Int) (hg : g.length % 2 = 0)
    (tf vf : Nat → Nat → Rat) (eps nT nV : Nat) (d : String)
    (hT : 0 < nT) (hV : 0 < nV) :
    gradient_accumulation_steps = 2 ∧
    accumulateSteps gradient_accumulation_steps g = pairSums g ∧
    (∃ tr, train_model tf vf eps nT nV d = .ok tr ∧
      tr.countP isOptStep = eps * nT) := by
  refine ⟨rfl, ?_, _,
          train_model_trace tf vf eps nT nV d (by omega) (by omega),
          trace_countP_opt tf vf eps nT nV d⟩
  exact accumGo_two g hg 0 (by decide)

theorem gradient_accumulation_pairs_witness :
    gradient_accumulation_steps = 2 ∧
    accumulateSteps gradient_accumulation_steps [1, 2, 3, 4] =
      pairSums [1, 2, 3, 4] ∧
    (∃ tr, train_model (fun _ _ => 1) (fun _ _ => 1) 1 2 1 "o" = .ok tr ∧
      tr.countP isOptStep = 1 * 2) :=
  gradient_accumulation_pairs [1, 2, 3, 4] (by decide)
    (fun _ _ => 1) (fun _ _ => 1) 1 2 1 "o" (by decide) (by decide)

/-- C8: JSONLDataset.__getitem__ raises IndexError for every index outside
[0, len), negative indices included, whatever the file system holds — so
no image file is opened for an out-of-range index. -/
theorem getitem_out_of_range {Image : Type} (ds : JSONLDataset) (idx : Int)
    (h : idx < 0 ∨ (ds.entries.length : Int) ≤ idx) :
    ∀ fs : String → Option Image, ds.getitem fs idx = .error .indexError := by
  intro fs
  unfold JSONLDataset.getitem
  rw [dif_pos h]

theorem getitem_out_of_range_witness :
    JSONLDataset.getitem (fun _ => (none : Option Nat))
      ⟨"t", "d", [[("image", "a.png")]]⟩ (-1) = .error .indexError :=
  getitem_out_of_range ⟨"t", "d", [[("image", "a.png")]]⟩ (-1) (by decide)
    (fun _ => none)

/-- C9: with at least one epoch, an empty train loader makes the run fail
with NameError at the training-loss print, a non-empty train loader with
an empty validation loader makes it fail with ZeroDivisionError at
avg_val_loss, and with both loaders non-empty every epoch prints averages
equal to the summed per-batch losses divided by the loader's batch
count. -/
theorem loop_requires_nonempty_loaders (tf vf : Nat → Nat → Rat)
    (eps nT nV : Nat) (d : String) (heps : 0 < eps) :
    (nT = 0 → train_model tf vf eps nT nV d = .error .nameError) ∧
    (nT ≠ 0 → nV = 0 →
      train_model tf vf eps nT nV d = .error .zeroDivisionError) ∧
    (nT ≠ 0 → nV ≠ 0 →
      ∃ tr, train_model tf vf eps nT nV d = .ok tr ∧
        ∀ e, e < eps →
          Event.printTrainLoss e (trainTotal tf nT e / (nT : Rat)) ∈ tr ∧
          Event.printValLoss e (valTotal vf nV e / (nV : Rat)) ∈ tr) := by
  obtain ⟨k, rfl⟩ : ∃ k, eps = k + 1 := ⟨eps - 1, by omega⟩
  refine ⟨?_, ?_, ?_⟩
  · intro hnT; subst hnT
    simp [train_model, List.range_succ_eq_map, runEpochsGo, runEpoch,
          trainPhaseGo]
  · intro hnT hnV; subst hnV
    have hrange : List.range nT ≠ [] := by simp [List.range_eq_nil, hnT]
    simp [train_model, List.range_succ_eq_map, runEpochsGo, runEpoch,
          trainPhaseGo_eq, hrange]
  · intro hnT hnV
    refine ⟨_, train_model_trace tf vf (k + 1) nT nV d hnT hnV, ?_⟩
    intro e he
    constructor
    · exact List.mem_flatMap.2 ⟨e, List.mem_range.2 he, by simp [epochEvents]⟩
    · exact List.mem_flatMap.2 ⟨e, List.mem_range.2 he, by simp [epochEvents]⟩

theorem loop_requires_nonempty_loaders_witness :
    ((1 : Nat) = 0 →
      train_model (fun _ _ => 1) (fun _ _ => 1) 1 1 1 "o" = .error .nameError) ∧
    ((1 : Nat) ≠ 0 → (1 : Nat) = 0 →
      train_model (fun _ _ => 1) (fun _ _ => 1) 1 1 1 "o" =
        .error .zeroDivisionError) ∧
    ((1 : Nat) ≠ 0 → (1 : Nat) ≠ 0 →
      ∃ tr, train_model (fun _ _ => 1) (fun _ _ => 1) 1 1 1 "o" = .ok tr ∧
        ∀ e, e < 1 →
          Event.printTrainLoss e
              (trainTotal (fun _ _ => 1) 1 e / ((1 : Nat) : Rat)) ∈ tr ∧
          Event.printValLoss e
              (valTotal (fun _ _ => 1) 1 e / ((1 : Nat) : Rat)) ∈ tr) :=
  loop_requires_nonempty_loaders (fun _ _ => 1) (fun _ _ => 1) 1 1 1 "o"
    (by decide)

/-- C10: the dataset object is immutable under its methods: any sequence of
__len__ and __getitem__ calls leaves the entries (and so the length)
unchanged, and every call's result is the one determined by the initial
state — repeated accesses at the same index return the same fields. -/
theorem dataset_state_immutable {Image : Type} (fs : String → Option Image)
    (ds : JSONLDataset) (ops : List DsOp) :
    (runOps fs ds ops).2 = ds ∧
    (runOps fs ds ops).1 = ops.map fun op => (runOp fs ds op).1 := by
  induction ops with
  | nil => exact ⟨rfl, rfl⟩
  | cons op ops ih =>
    simp only [runOps, runOp_state]
    exact ⟨ih.1, by simp [runOp_state, ih.2]⟩

end TrainPy
